import Mathlib

/-!
Verification of the workflow execution-context core of
`cloudify-plugins-common` (`cloudify/workflows/workflow_context.py`).

The Python module is shallowly embedded below.  Python dictionaries are
modelled as association lists over `String` keys (`Alist`), with the
operations the source uses: `d.get(k)` (`Alist.get?`), `d[k] = v`
(`Alist.insert`, replacing in place), `d.pop(k, None)` (`Alist.pop`),
`d.update(other)` (`Alist.update`).  Python values stored in those
dictionaries are modelled by the inductive `Val` (`Val.none` is Python
`None`).  Fallible code (KeyError, AttributeError, RuntimeError,
TypeError) is modelled with `Except PyErr`.  The single in-place mutation
the code performs on the node graph (line 193 assigns into the stored
operation definition's `properties` dict) is made explicit: the embedded
`executeOperation` returns, next to its outcome, the updated operations
table.
-/

/-- Python exception kinds raised by the embedded code. -/
inductive PyErr where
  | attributeError (attr : String)
  | keyError (key : String)
  | runtimeError (msg : String)
  | typeError
deriving Repr, DecidableEq

namespace Alist

/-- `d.get(key)`: first binding of `key` in the association list. -/
def get? {α : Type} : List (String × α) → String → Option α
  | [], _ => none
  | (k, v) :: t, key => if key = k then some v else get? t key

/-- `d[key] = v`: replace the binding in place, or append a fresh one. -/
def insert {α : Type} : List (String × α) → String → α → List (String × α)
  | [], key, v => [(key, v)]
  | (k, w) :: t, key, v => if k = key then (k, v) :: t else (k, w) :: insert t key v

/-- `d.pop(key, None)`: drop the binding of `key`. -/
def pop {α : Type} : List (String × α) → String → List (String × α)
  | [], _ => []
  | (k, v) :: t, key => if k = key then pop t key else (k, v) :: pop t key

/-- `d.update(other)`: set every binding of `other` in `d`, `other` wins. -/
def update {α : Type} (d : List (String × α)) : List (String × α) → List (String × α)
  | [] => d
  | (k, v) :: t => update (insert d k v) t

/-- `d.keys()`. -/
def keys {α : Type} (d : List (String × α)) : List String := d.map Prod.fst

end Alist

/-- A Python value as stored in the dictionaries the module manipulates. -/
inductive Val where
  | none
  | str (s : String)
  | int (n : Int)
  | map (m : List (String × Val))

/-- A Python dictionary with string keys. -/
abbrev Dict := List (String × Val)

/-- `None` for an absent optional string, the string otherwise (the module
stores `.get(...)` results such as `node.name` directly into dicts). -/
def optStrVal : Option String → Val
  | Option.none => Val.none
  | Option.some s => Val.str s

/-- Step of `_safe_update`: the loop `for key, value in dict1.items()`
running over the remaining items, with `result` accumulated so far.
For the reserved key the code does `result[key] = {}` when absent and then
`result[key].update(value)`; `update` demands both sides be dicts, anything
else raises (modelled as `PyErr.typeError`).  Any other key already present
in `result` raises the collision `RuntimeError`. -/
def safeUpdateGo : Dict → List (String × Val) → Except PyErr Dict
  | result, [] => Except.ok result
  | result, (key, value) :: rest =>
    if key = "cloudify_runtime" then
      match (Alist.get? result key).getD (Val.map []), value with
      | Val.map m, Val.map vm =>
          safeUpdateGo (Alist.insert result key (Val.map (Alist.update m vm))) rest
      | _, _ => Except.error PyErr.typeError
    else if (Alist.get? result key).isSome then
      Except.error (PyErr.runtimeError ("Target map already contains key: " ++ key))
    else
      safeUpdateGo (Alist.insert result key value) rest

/-- Embeds `_safe_update(dict1, dict2)`: `result = copy.deepcopy(dict2)`
(value semantics make the deep copy implicit) and then the loop above. -/
def safe_update (dict1 dict2 : Dict) : Except PyErr Dict :=
  safeUpdateGo dict2 dict1

/-- Any value stored under the reserved key is a sub-dictionary. -/
def runtimeIsMap (d : Dict) : Prop :=
  ∀ v, Alist.get? d "cloudify_runtime" = some v → ∃ m, v = Val.map m

/-- Metadata of one entry of `raw_node['plugins']`; the router reads the
string-typed ownership flags with mandatory bracket access. -/
structure PluginSpec where
  agent_plugin : String
  manager_plugin : String

/-- One operation definition: `op_struct['plugin']`, `op_struct['operation']`
(mandatory) and `op_struct.get('properties')` (optional). -/
structure OpStruct where
  plugin : String
  operation : String
  properties : Option Dict

/-- An operations table (`node['operations']`, `source_operations`, ...). -/
abbrev OpsTable := List (String × OpStruct)

/-- One raw relationship dict, with the defaults the accessors apply:
`relationship.get('target_id')`, `.get('source_operations', {})`,
`.get('target_operations', {})`. -/
structure RawRel where
  target_id : Option String
  source_operations : OpsTable
  target_operations : OpsTable

/-- A raw node dict of the parsed plan, restricted to the keys this module
reads.  `id` is mandatory (graph construction uses `node['id']`), `name` is
read with `.get`, `properties` with `.get('properties', {})` (the default is
folded in), `plugins` and `operations` with mandatory bracket access, and
`host_id` with mandatory bracket access (`none` models the key being absent,
so reading it raises `KeyError`). -/
structure RawNode where
  id : String
  name : Option String
  properties : Dict
  plugins : List (String × PluginSpec)
  operations : OpsTable
  host_id : Option String
  relationships : List RawRel

/-- The state of a `CloudifyWorkflowContext`: the four workflow-scoped
identifiers (each read from `self._context` with `.get`) and the node
graph `self._nodes`. -/
structure WfCtx where
  deployment_id : Option String
  blueprint_id : Option String
  execution_id : Option String
  workflow_id : Option String
  nodes : List (String × RawNode)

/-- The dict comprehension of `CloudifyWorkflowContext.__init__`:
`{node['id']: CloudifyWorkflowNode(self, node) for node in ctx['plan']['nodes']}`
(later nodes overwrite earlier ones on a duplicated id, as in a dict). -/
def buildNodes (ns : List RawNode) : List (String × RawNode) :=
  ns.foldl (fun acc n => Alist.insert acc n.id n) []

/-- `CloudifyWorkflowContext.__init__` from the plan plus identifiers. -/
def workflowContextInit (deployment_id blueprint_id execution_id workflow_id : Option String)
    (plan_nodes : List RawNode) : WfCtx :=
  { deployment_id := deployment_id, blueprint_id := blueprint_id,
    execution_id := execution_id, workflow_id := workflow_id,
    nodes := buildNodes plan_nodes }

/-- `CloudifyWorkflowContext.get_node`: `self._nodes.get(node_id)`. -/
def WfCtx.get_node (c : WfCtx) (node_id : String) : Option RawNode :=
  Alist.get? c.nodes node_id

/-- The fixed entries of `_build_cloudify_context` (lines 250-259): the
protocol-version tag keyed `__cloudify_context`, the task data and the four
workflow identifiers. -/
def ccBase (c : WfCtx) (task_id : String) (task_queue : Option String)
    (task_name : String) : Dict :=
  [("__cloudify_context", Val.str "0.3"),
   ("task_id", Val.str task_id),
   ("task_name", Val.str task_name),
   ("task_target", optStrVal task_queue),
   ("blueprint_id", optStrVal c.blueprint_id),
   ("deployment_id", optStrVal c.deployment_id),
   ("execution_id", optStrVal c.execution_id),
   ("workflow_id", optStrVal c.workflow_id)]

/-- `CloudifyWorkflowContext._build_cloudify_context`: the fixed entries, then
`context.update(node_context)` when a node context is given. -/
def build_cloudify_context (c : WfCtx) (task_id : String) (task_queue : Option String)
    (task_name : String) (node_context : Option Dict) : Dict :=
  match node_context with
  | Option.none => ccBase c task_id task_queue task_name
  | Option.some nc => Alist.update (ccBase c task_id task_queue task_name) nc

/-- The `node` argument of `_execute_operation`, as Python duck typing sees
it: a `CloudifyWorkflowNode` wrapper, a bare raw-node dict (what the graph
erroneously stores into its relationship wrappers), or `None` (an unresolved
target).  Only the wrapper exposes the `_node` attribute. -/
inductive NodeArg where
  | wrapper (n : RawNode)
  | raw (n : RawNode)
  | pynone

/-- The `related_node` argument: either a `CloudifyWorkflowNode` wrapper or
the relationship wrapper itself (`related_node = self` in the
`run_on_target` branch); the latter has no `properties`/`id` attributes. -/
inductive RelatedArg where
  | wrapper (n : RawNode)
  | relObj

/-- `related_node.properties` (attribute lookup). -/
def RelatedArg.getProperties : RelatedArg → Except PyErr Dict
  | RelatedArg.wrapper n => Except.ok n.properties
  | RelatedArg.relObj => Except.error (PyErr.attributeError "properties")

/-- `related_node.id` (attribute lookup). -/
def RelatedArg.getId : RelatedArg → Except PyErr String
  | RelatedArg.wrapper n => Except.ok n.id
  | RelatedArg.relObj => Except.error (PyErr.attributeError "id")

/-- Lines 180-184: the queue-selection of `_execute_operation`.
`raw_node['host_id']` is bracket access, so a missing key raises. -/
def computeTaskQueue (c : WfCtx) (n : RawNode) (plugin : PluginSpec) :
    Except PyErr (Option String) :=
  if plugin.agent_plugin = "true" then
    match n.host_id with
    | Option.some h => Except.ok (Option.some h)
    | Option.none => Except.error (PyErr.keyError "host_id")
  else if plugin.manager_plugin = "true" then
    Except.ok c.deployment_id
  else
    Except.ok (Option.some "cloudify.management")

/-- Lines 187-195 of `_execute_operation`: choose the base property set and
record the in-place mutation.  When the trigger is a relationship the base is
forced to `{}`; otherwise the declared `op_struct['properties']` dict is used
when present — and in that case the assignment
`operation_properties['cloudify_runtime'] = node.properties.get('cloudify_runtime', {})`
mutates the dict stored in the operations table, so the second component is
the table with that entry updated.  When no properties are declared the base
aliases `node.properties` (read-only here). -/
def computeProperties (n : RawNode) (op_struct : OpStruct) (operation : String)
    (operations : OpsTable) (related_node : Option RelatedArg) : Dict × OpsTable :=
  let rt := (Alist.get? n.properties "cloudify_runtime").getD (Val.map [])
  match (if related_node.isSome then Option.some ([] : Dict) else op_struct.properties) with
  | Option.none => (n.properties, operations)
  | Option.some d =>
    let b := Alist.insert d "cloudify_runtime" rt
    (b, if related_node.isSome then operations
        else Alist.insert operations operation { op_struct with properties := Option.some b })

/-- Lines 199-211 of `_execute_operation`: the six fixed entries of the
node context.  `context_node_properties` is a copy of the merged base with
the internal node-id marker and the raw runtime sub-map popped; the runtime
sub-map is kept separately as `capabilities`. -/
def nodeContextBase (n : RawNode) (operation : String) (plugin_name : String)
    (operation_properties : Dict) : Dict :=
  [("node_id", Val.str n.id),
   ("node_name", optStrVal n.name),
   ("node_properties",
     Val.map (Alist.pop (Alist.pop operation_properties "__cloudify_id") "cloudify_runtime")),
   ("plugin", Val.str plugin_name),
   ("operation", Val.str operation),
   ("capabilities", (Alist.get? operation_properties "cloudify_runtime").getD (Val.map []))]

/-- Lines 199-218 of `_execute_operation`: the node-context block.  With a
related node, its `properties` and `id` attributes are read (in that order)
and its copied properties get `cloudify_runtime` popped as well. -/
def buildNodeContext (n : RawNode) (operation : String) (plugin_name : String)
    (operation_properties : Dict) (related_node : Option RelatedArg) :
    Except PyErr Dict :=
  match related_node with
  | Option.none => Except.ok (nodeContextBase n operation plugin_name operation_properties)
  | Option.some r =>
    match RelatedArg.getProperties r with
    | Except.error e => Except.error e
    | Except.ok rprops =>
      match RelatedArg.getId r with
      | Except.error e => Except.error e
      | Except.ok rid =>
        Except.ok (Alist.insert (nodeContextBase n operation plugin_name operation_properties)
          "related"
          (Val.map [("node_id", Val.str rid),
                    ("node_properties", Val.map (Alist.pop rprops "cloudify_runtime"))]))

/-- The outcome of `_execute_operation`: the `NOP` marker when the operation
is not in the table, otherwise the `RemoteWorkflowTask` produced by
`execute_task` — modelled by the data it captures: the delivery queue, the
task name, the final keyword arguments (with `__cloudify_id` and
`__cloudify_context` injected), the context envelope, and the task id. -/
inductive ExecOutcome where
  | nop
  | remote (task_queue : Option String) (task_name : String)
      (task_kwargs : Dict) (cloudify_context : Dict) (task_id : String)

/-- `CloudifyWorkflowContext._execute_operation` followed by `execute_task`.
The fresh `uuid.uuid4()` is passed in as `task_id` (an external supply of
unique identifiers).  The second component of a successful result is the
operations table after the call (it differs from the input exactly when the
code's line 193 mutated the stored operation definition). -/
def executeOperation (c : WfCtx) (operation : String) (node : NodeArg)
    (operations : OpsTable) (related_node : Option RelatedArg) (kwargs : Dict)
    (task_id : String) : Except PyErr (ExecOutcome × OpsTable) :=
  match node with
  | NodeArg.raw _ => Except.error (PyErr.attributeError "_node")
  | NodeArg.pynone => Except.error (PyErr.attributeError "_node")
  | NodeArg.wrapper n =>
    match Alist.get? operations operation with
    | Option.none => Except.ok (ExecOutcome.nop, operations)
    | Option.some op_struct =>
      match Alist.get? n.plugins op_struct.plugin with
      | Option.none => Except.error (PyErr.keyError op_struct.plugin)
      | Option.some plugin =>
        match computeTaskQueue c n plugin with
        | Except.error e => Except.error e
        | Except.ok task_queue =>
          match safe_update (computeProperties n op_struct operation operations related_node).1
              kwargs with
          | Except.error e => Except.error e
          | Except.ok kw0 =>
            match buildNodeContext n operation op_struct.plugin
                (computeProperties n op_struct operation operations related_node).1
                related_node with
            | Except.error e => Except.error e
            | Except.ok node_context =>
              Except.ok
                (ExecOutcome.remote task_queue
                  (op_struct.plugin ++ "." ++ op_struct.operation)
                  (Alist.insert
                    (Alist.insert kw0 "__cloudify_id" (Val.str n.id))
                    "__cloudify_context"
                    (Val.map (build_cloudify_context c task_id task_queue
                      (op_struct.plugin ++ "." ++ op_struct.operation)
                      (Option.some node_context))))
                  (build_cloudify_context c task_id task_queue
                    (op_struct.plugin ++ "." ++ op_struct.operation)
                    (Option.some node_context))
                  task_id,
                 (computeProperties n op_struct operation operations related_node).2)

/-- `CloudifyWorkflowNode.execute_operation`: delegates to
`_execute_operation` with the node's own operations table. -/
def nodeExecuteOperation (c : WfCtx) (n : RawNode) (operation : String)
    (kwargs : Dict) (task_id : String) : Except PyErr (ExecOutcome × OpsTable) :=
  executeOperation c operation (NodeArg.wrapper n) n.operations Option.none kwargs task_id

/-- What a `CloudifyWorkflowRelationship` stores in `self.ctx`: either a
`CloudifyWorkflowContext` or — as the graph actually constructs it — the
owning `CloudifyWorkflowNode` wrapper. -/
inductive CtxLike where
  | workflowContext (c : WfCtx)
  | workflowNode (n : RawNode)

/-- `self.ctx.get_node(target_id)`: attribute lookup plus call.  A
`CloudifyWorkflowNode` has no `get_node` attribute, so that case raises;
on a workflow context, `self._nodes.get(...)` never raises (a `None` id
simply misses every string key). -/
def CtxLike.get_node_of : CtxLike → Option String → Except PyErr (Option RawNode)
  | CtxLike.workflowContext c, Option.some i => Except.ok (WfCtx.get_node c i)
  | CtxLike.workflowContext _, Option.none => Except.ok Option.none
  | CtxLike.workflowNode _, _ => Except.error (PyErr.attributeError "get_node")

/-- `self.ctx._execute_operation(...)`: attribute lookup plus call. -/
def CtxLike.execOp : CtxLike → String → NodeArg → OpsTable → Option RelatedArg →
    Dict → String → Except PyErr (ExecOutcome × OpsTable)
  | CtxLike.workflowContext c, operation, node, operations, related, kwargs, task_id =>
      executeOperation c operation node operations related kwargs task_id
  | CtxLike.workflowNode _, _, _, _, _, _, _ =>
      Except.error (PyErr.attributeError "_execute_operation")

/-- A `CloudifyWorkflowRelationship` instance: the three constructor
arguments `(ctx, node, relationship)` as fields. -/
structure Relationship where
  ctx : CtxLike
  node : NodeArg
  rel : RawRel

/-- `CloudifyWorkflowRelationship.target_id`. -/
def Relationship.target_id (r : Relationship) : Option String :=
  r.rel.target_id

/-- `CloudifyWorkflowRelationship.execute_relationship_operation`.  The
`run_on_source` branch acts on `self.node` with the target as related node
(a missing target makes `related_node` `None`); the `run_on_target` branch
acts on the target (possibly `None`) with `self` as related node. -/
def Relationship.execute_relationship_operation (r : Relationship) (operation : String)
    (run_on_source : Bool) (kwargs : Dict) (task_id : String) :
    Except PyErr (ExecOutcome × OpsTable) :=
  match CtxLike.get_node_of r.ctx (Relationship.target_id r) with
  | Except.error e => Except.error e
  | Except.ok target_node =>
    if run_on_source then
      CtxLike.execOp r.ctx operation r.node r.rel.source_operations
        (Option.map RelatedArg.wrapper target_node) kwargs task_id
    else
      CtxLike.execOp r.ctx operation
        (match target_node with
         | Option.some t => NodeArg.wrapper t
         | Option.none => NodeArg.pynone)
        r.rel.target_operations (Option.some RelatedArg.relObj) kwargs task_id

/-- `CloudifyWorkflowNode.__init__` builds the relationship wrappers as
`CloudifyWorkflowRelationship(self, node, relationship)` — so `ctx` receives
the node WRAPPER and `node` receives the raw dict. -/
def nodeRelationships (n : RawNode) : List Relationship :=
  n.relationships.map (fun rel =>
    { ctx := CtxLike.workflowNode n, node := NodeArg.raw n, rel := rel })

/-- The delivery queue of a successful dispatch, `none` otherwise. -/
def execQueue? : Except PyErr (ExecOutcome × OpsTable) → Option (Option String)
  | Except.ok (ExecOutcome.remote q _ _ _ _, _) => Option.some q
  | _ => Option.none

/-- The context envelope of a successful dispatch. -/
def ccOf : Except PyErr (ExecOutcome × OpsTable) → Option Dict
  | Except.ok (ExecOutcome.remote _ _ _ cc _, _) => Option.some cc
  | _ => Option.none

/-- The operations table returned by a successful call. -/
def opsOf : Except PyErr (ExecOutcome × OpsTable) → OpsTable
  | Except.ok (_, t) => t
  | _ => []

/-- Queue component of a successful dispatch (default `none`). -/
def queueD : Except PyErr (ExecOutcome × OpsTable) → Option String
  | Except.ok (ExecOutcome.remote q _ _ _ _, _) => q
  | _ => Option.none

/-- Task-name component of a successful dispatch (default `""`). -/
def tnameD : Except PyErr (ExecOutcome × OpsTable) → String
  | Except.ok (ExecOutcome.remote _ t _ _ _, _) => t
  | _ => ""

/-- Task-kwargs component of a successful dispatch (default `[]`). -/
def kwargsD : Except PyErr (ExecOutcome × OpsTable) → Dict
  | Except.ok (ExecOutcome.remote _ _ kw _ _, _) => kw
  | _ => []

/-- Envelope component of a successful dispatch (default `[]`). -/
def ccD : Except PyErr (ExecOutcome × OpsTable) → Dict
  | Except.ok (ExecOutcome.remote _ _ _ cc _, _) => cc
  | _ => []

/-- Task-id component of a successful dispatch (default `""`). -/
def tidD : Except PyErr (ExecOutcome × OpsTable) → String
  | Except.ok (ExecOutcome.remote _ _ _ _ t, _) => t
  | _ => ""

/-- Keys of the declared properties of the operation stored under `k`. -/
def opPropsKeys (t : OpsTable) (k : String) : Option (List String) :=
  (Alist.get? t k).map (fun os => (os.properties.getD []).map Prod.fst)

/-- The integer stored under `x` in the merged runtime sub-map. -/
def xEntryInt (e : Except PyErr Dict) : Option Int :=
  match e with
  | Except.ok r =>
    match Alist.get? r "cloudify_runtime" with
    | Option.some (Val.map m) =>
      match Alist.get? m "x" with
      | Option.some (Val.int i) => Option.some i
      | _ => Option.none
    | _ => Option.none
  | _ => Option.none

/-- Sample operation definition without declared properties. -/
def osStart : OpStruct := { plugin := "p", operation := "run", properties := Option.none }

/-- Sample operation definition with declared properties (for the mutation
at line 193). -/
def osCreate : OpStruct :=
  { plugin := "p", operation := "run", properties := Option.some [("a", Val.int 1)] }

/-- Sample raw relationship. -/
def relS : RawRel :=
  { target_id := Option.some "n2",
    source_operations := [("link", osStart)],
    target_operations := [("unlink", osStart)] }

/-- Sample node with an agent-owned plugin and a host. -/
def nS : RawNode :=
  { id := "n1", name := Option.some "node-one",
    properties := [("p", Val.int 1), ("cloudify_runtime", Val.map [("r", Val.int 7)])],
    plugins := [("p", { agent_plugin := "true", manager_plugin := "false" })],
    operations := [("start", osStart)],
    host_id := Option.some "h1",
    relationships := [relS] }

/-- Sample target node. -/
def nT : RawNode :=
  { id := "n2", name := Option.none,
    properties := [("q", Val.int 2)], plugins := [], operations := [],
    host_id := Option.none, relationships := [] }

/-- Sample workflow context over the two nodes. -/
def ctxS : WfCtx :=
  workflowContextInit (Option.some "d1") (Option.some "b1") (Option.some "e1")
    (Option.some "w1") [nS, nT]

/-- Sample workflow context whose graph lacks the relationship target. -/
def ctxNoT : WfCtx :=
  workflowContextInit (Option.some "d1") (Option.some "b1") (Option.some "e1")
    (Option.some "w1") [nS]

/-- The relationship wrapper the graph builds for `nS` (ctx is the node
wrapper, node is the raw dict). -/
def relInstS : Relationship :=
  { ctx := CtxLike.workflowNode nS, node := NodeArg.raw nS, rel := relS }

/-- Sample node-triggered dispatch (agent routing, no declared properties). -/
def execS : Except PyErr (ExecOutcome × OpsTable) :=
  executeOperation ctxS "start" (NodeArg.wrapper nS) nS.operations Option.none [] "t1"

/-- Sample relationship-triggered dispatch (`run_on_source` path after a
successful target resolution). -/
def execRelS : Except PyErr (ExecOutcome × OpsTable) :=
  executeOperation ctxS "link" (NodeArg.wrapper nS) relS.source_operations
    (Option.some (RelatedArg.wrapper nT)) [] "t6"

/-- Sample node-triggered dispatch of an operation with declared properties
(exhibits the operations-table mutation). -/
def execMutC : Except PyErr (ExecOutcome × OpsTable) :=
  executeOperation ctxS "create" (NodeArg.wrapper nS) [("create", osCreate)]
    Option.none [] "t3"

/-- `True` exactly on a non-exceptional result. -/
def isOk {ε α : Type} : Except ε α → Bool
  | Except.ok _ => true
  | Except.error _ => false

theorem Alist.get?_insert {α : Type} (d : List (String × α)) (k : String) (v : α) (k2 : String) :
    get? (insert d k v) k2 = if k2 = k then some v else get? d k2 := by
  induction d with
  | nil => simp [insert, get?]
  | cons h t ih =>
    obtain ⟨hk, hv⟩ := h
    by_cases e1 : hk = k
    · subst e1
      by_cases e2 : k2 = hk <;> simp [insert, get?, e2]
    · by_cases e2 : k2 = hk
      · subst e2
        simp [insert, get?, e1, Ne.symm e1]
      · simp [insert, get?, e1, e2, ih]

theorem Alist.get?_pop {α : Type} (d : List (String × α)) (k : String) (k2 : String) :
    get? (pop d k) k2 = if k2 = k then none else get? d k2 := by
  induction d with
  | nil => simp [pop, get?]
  | cons h t ih =>
    obtain ⟨hk, hv⟩ := h
    by_cases e1 : hk = k
    · subst e1
      by_cases e2 : k2 = hk
      · subst e2
        simp [pop, get?, ih]
      · simp [pop, get?, e2, ih]
    · by_cases e2 : k2 = hk
      · subst e2
        simp [pop, get?, e1, Ne.symm e1]
      · simp [pop, get?, e1, e2, ih]

theorem Alist.get?_append {α : Type} (d1 d2 : List (String × α)) (k : String) :
    get? (d1 ++ d2) k = match get? d1 k with
      | some v => some v
      | none => get? d2 k := by
  induction d1 with
  | nil => simp [get?]
  | cons h t ih =>
    obtain ⟨hk, hv⟩ := h
    by_cases e : k = hk <;> simp [get?, e, ih]

theorem Alist.insert_of_get?_eq_none {α : Type} (d : List (String × α)) (k : String) (v : α)
    (h : get? d k = none) : insert d k v = d ++ [(k, v)] := by
  induction d with
  | nil => simp [insert]
  | cons hd t ih =>
    obtain ⟨hk, hv⟩ := hd
    by_cases e : k = hk
    · simp [get?, e] at h
    · simp [get?, e] at h
      simp [insert, Ne.symm e, ih h]

theorem Alist.update_of_disjoint {α : Type} (o d : List (String × α))
    (hd : ∀ p ∈ o, get? d p.1 = none) (ho : (keys o).Nodup) :
    update d o = d ++ o := by
  induction o generalizing d with
  | nil => simp [update]
  | cons h t ih =>
    obtain ⟨hk, hv⟩ := h
    have hnone : get? d hk = none := hd (hk, hv) (by simp)
    have step : insert d hk hv = d ++ [(hk, hv)] := insert_of_get?_eq_none d hk hv hnone
    have ho2 : (hk :: keys t).Nodup := by simpa [keys] using ho
    have hnodup : (keys t).Nodup := (List.nodup_cons.mp ho2).2
    have hmem : hk ∉ keys t := (List.nodup_cons.mp ho2).1
    have hd2 : ∀ p ∈ t, get? (d ++ [(hk, hv)]) p.1 = none := by
      intro p hp
      have h1 : get? d p.1 = none := hd p (by simp [hp])
      have h2 : p.1 ≠ hk := by
        intro e
        exact hmem (e ▸ List.mem_map.mpr ⟨p, hp, rfl⟩)
      rw [get?_append, h1]
      simp [get?, h2]
    calc update d ((hk, hv) :: t) = update (insert d hk hv) t := by simp [update]
      _ = update (d ++ [(hk, hv)]) t := by rw [step]
      _ = (d ++ [(hk, hv)]) ++ t := ih (d ++ [(hk, hv)]) hd2 hnodup
      _ = d ++ ((hk, hv) :: t) := by simp

theorem Alist.isSome_get?_iff_mem_keys {α : Type} (d : List (String × α)) (k : String) :
    (get? d k).isSome = true ↔ k ∈ keys d := by
  induction d with
  | nil => simp [get?, keys]
  | cons h t ih =>
    obtain ⟨hk, hv⟩ := h
    by_cases e : k = hk <;> simp [get?, keys, e, ih]


theorem Alist.get?_eq_none_of_not_mem {α : Type} (d : List (String × α)) (k : String)
    (h : k ∉ Alist.keys d) : Alist.get? d k = none := by
  cases hc : Alist.get? d k with
  | none => rfl
  | some v =>
    exact absurd ((Alist.isSome_get?_iff_mem_keys d k).mp (by simp [hc])) h

theorem safeUpdateGo_get?_of_not_mem (items : List (String × Val)) :
    ∀ (result : Dict) (k : String), k ∉ items.map Prod.fst →
      ∀ r, safeUpdateGo result items = Except.ok r →
        Alist.get? r k = Alist.get? result k := by
  induction items with
  | nil =>
    intro result k _ r h
    simp [safeUpdateGo] at h
    subst h; rfl
  | cons p rest ih =>
    obtain ⟨key, value⟩ := p
    intro result k hk r h
    simp only [List.map_cons, List.mem_cons, not_or] at hk
    obtain ⟨hk1, hk2⟩ := hk
    simp only [safeUpdateGo] at h
    split at h
    · split at h
      · rw [ih _ k hk2 r h, Alist.get?_insert]
        simp [hk1]
      · exact absurd h (by simp)
    · split at h
      · exact absurd h (by simp)
      · rw [ih _ k hk2 r h, Alist.get?_insert]
        simp [hk1]

theorem safeUpdateGo_isSome_get? (items : List (String × Val)) :
    ∀ (result : Dict) (r : Dict), safeUpdateGo result items = Except.ok r →
      ∀ k, (Alist.get? r k).isSome = true ↔
        ((Alist.get? result k).isSome = true ∨ k ∈ items.map Prod.fst) := by
  induction items with
  | nil =>
    intro result r h k
    simp [safeUpdateGo] at h
    subst h; simp
  | cons p rest ih =>
    obtain ⟨key, value⟩ := p
    intro result r h k
    simp only [safeUpdateGo] at h
    split at h
    next hkey =>
      subst hkey
      split at h
      · rw [ih _ r h k, Alist.get?_insert]
        by_cases e : k = "cloudify_runtime" <;> simp [e]
      · exact absurd h (by simp)
    next hkey =>
      split at h
      · exact absurd h (by simp)
      · rw [ih _ r h k, Alist.get?_insert]
        by_cases e : k = key <;> simp [e]

theorem safeUpdateGo_isOk_iff (items : List (String × Val)) :
    ∀ (result : Dict), (items.map Prod.fst).Nodup →
      runtimeIsMap items → runtimeIsMap result →
      (isOk (safeUpdateGo result items) = true ↔
        ∀ k, k ∈ items.map Prod.fst → (Alist.get? result k).isSome = true →
          k = "cloudify_runtime") := by
  induction items with
  | nil =>
    intro result _ _ _
    simp [safeUpdateGo, isOk]
  | cons p rest ih =>
    obtain ⟨key, value⟩ := p
    intro result hnodup hrtI hrtR
    simp only [List.map_cons, List.nodup_cons] at hnodup
    obtain ⟨hknotin, hndrest⟩ := hnodup
    simp only [safeUpdateGo]
    by_cases hkey : key = "cloudify_runtime"
    · subst hkey
      obtain ⟨vm, hvm⟩ := hrtI value (by simp [Alist.get?])
      subst hvm
      have hcur : ∃ m2,
          (Alist.get? result "cloudify_runtime").getD (Val.map []) = Val.map m2 := by
        cases hres : Alist.get? result "cloudify_runtime" with
        | none => exact ⟨[], rfl⟩
        | some v =>
          obtain ⟨m2, hm2⟩ := hrtR v hres
          exact ⟨m2, by simp [hres, hm2]⟩
      obtain ⟨m2, hm2⟩ := hcur
      rw [if_pos rfl]
      simp only [hm2]
      have hrtI2 : runtimeIsMap rest := by
        intro v hv
        have hmem : "cloudify_runtime" ∈ Alist.keys rest :=
          (Alist.isSome_get?_iff_mem_keys rest _).mp (by simp [hv])
        exact absurd (by simpa [Alist.keys] using hmem) hknotin
      have hrtR2 : runtimeIsMap
          (Alist.insert result "cloudify_runtime" (Val.map (Alist.update m2 vm))) := by
        intro v hv
        rw [Alist.get?_insert] at hv
        simp at hv
        exact ⟨_, hv.symm⟩
      rw [ih _ hndrest hrtI2 hrtR2]
      constructor
      · intro hall k hkmem hsome
        rcases List.mem_cons.mp hkmem with e | hkrest
        · exact e
        · have hne : k ≠ "cloudify_runtime" := fun e => hknotin (e ▸ hkrest)
          refine hall k hkrest ?_
          rw [Alist.get?_insert]
          simp [hne, hsome]
      · intro hall k hkrest hsome
        have hne : k ≠ "cloudify_runtime" := fun e => hknotin (e ▸ hkrest)
        rw [Alist.get?_insert] at hsome
        simp [hne] at hsome
        exact hall k (List.mem_cons_of_mem _ hkrest) hsome
    · rw [if_neg hkey]
      by_cases hpres : (Alist.get? result key).isSome = true
      · rw [if_pos hpres]
        simp only [isOk]
        constructor
        · intro h; cases h
        · intro hall
          exact absurd (hall key (List.mem_cons_self _ _) hpres) hkey
      · rw [if_neg hpres]
        have hrtI2 : runtimeIsMap rest := by
          intro v hv
          refine hrtI v ?_
          simp [Alist.get?, Ne.symm hkey, hv]
        have hrtR2 : runtimeIsMap (Alist.insert result key value) := by
          intro v hv
          rw [Alist.get?_insert] at hv
          simp [Ne.symm hkey] at hv
          exact hrtR v hv
        rw [ih _ hndrest hrtI2 hrtR2]
        constructor
        · intro hall k hkmem hsome
          rcases List.mem_cons.mp hkmem with e | hkrest
          · subst e
            exact absurd hsome hpres
          · have hne : k ≠ key := fun e => hknotin (e ▸ hkrest)
            refine hall k hkrest ?_
            rw [Alist.get?_insert]
            simp [hne, hsome]
        · intro hall k hkrest hsome
          have hne : k ≠ key := fun e => hknotin (e ▸ hkrest)
          rw [Alist.get?_insert] at hsome
          simp [hne] at hsome
          exact hall k (List.mem_cons_of_mem _ hkrest) hsome

theorem safeUpdateGo_runtime (items : List (String × Val)) :
    ∀ (result : Dict) (m1 m2 : Dict) (r : Dict),
      (items.map Prod.fst).Nodup →
      Alist.get? items "cloudify_runtime" = some (Val.map m1) →
      Alist.get? result "cloudify_runtime" = some (Val.map m2) →
      safeUpdateGo result items = Except.ok r →
      Alist.get? r "cloudify_runtime" = some (Val.map (Alist.update m2 m1)) := by
  induction items with
  | nil =>
    intro result m1 m2 r _ hm1 _ _
    simp [Alist.get?] at hm1
  | cons p rest ih =>
    obtain ⟨key, value⟩ := p
    intro result m1 m2 r hnodup hm1 hm2 h
    simp only [List.map_cons, List.nodup_cons] at hnodup
    obtain ⟨hknotin, hndrest⟩ := hnodup
    simp only [safeUpdateGo] at h
    by_cases hkey : key = "cloudify_runtime"
    · subst hkey
      have hval : value = Val.map m1 := by
        simp [Alist.get?] at hm1
        exact hm1
      subst hval
      rw [if_pos rfl] at h
      simp only [hm2, Option.getD_some] at h
      rw [safeUpdateGo_get?_of_not_mem rest _ "cloudify_runtime" hknotin r h,
        Alist.get?_insert]
      simp
    · rw [if_neg hkey] at h
      have hm1r : Alist.get? rest "cloudify_runtime" = some (Val.map m1) := by
        simpa [Alist.get?, Ne.symm hkey] using hm1
      split at h
      · exact absurd h (by simp)
      · refine ih _ m1 m2 r hndrest hm1r ?_ h
        rw [Alist.get?_insert]
        simp [Ne.symm hkey, hm2]

theorem get?_buildNodesAux_not_mem (ns : List RawNode) :
    ∀ (acc : List (String × RawNode)) (i : String), i ∉ ns.map RawNode.id →
      Alist.get? (ns.foldl (fun a n => Alist.insert a n.id n) acc) i = Alist.get? acc i := by
  induction ns with
  | nil => intro acc i _; rfl
  | cons n rest ih =>
    intro acc i hi
    simp only [List.map_cons, List.mem_cons, not_or] at hi
    obtain ⟨h1, h2⟩ := hi
    rw [List.foldl_cons, ih _ i h2, Alist.get?_insert]
    simp [h1]

theorem get?_buildNodesAux_mem (ns : List RawNode) :
    ∀ (acc : List (String × RawNode)) (N : RawNode), (ns.map RawNode.id).Nodup → N ∈ ns →
      Alist.get? (ns.foldl (fun a n => Alist.insert a n.id n) acc) N.id = Option.some N := by
  induction ns with
  | nil => intro acc N _ h; cases h
  | cons n rest ih =>
    intro acc N hnd hmem
    simp only [List.map_cons, List.nodup_cons] at hnd
    obtain ⟨hnotin, hndr⟩ := hnd
    rw [List.foldl_cons]
    rcases List.mem_cons.mp hmem with e | hmr
    · subst e
      rw [get?_buildNodesAux_not_mem rest _ N.id hnotin, Alist.get?_insert]
      simp
    · exact ih _ N hndr hmr

theorem computeProperties_related (n : RawNode) (os : OpStruct) (operation : String)
    (operations : OpsTable) (r : RelatedArg) :
    computeProperties n os operation operations (Option.some r)
      = ([("cloudify_runtime", (Alist.get? n.properties "cloudify_runtime").getD (Val.map []))],
         operations) := by
  simp [computeProperties, Alist.insert]

theorem build_cc_eq_append (c : WfCtx) (task_id : String) (task_queue : Option String)
    (task_name : String) (nc : Dict) (hnd : (Alist.keys nc).Nodup)
    (hdisj : ∀ p ∈ nc, Alist.get? (ccBase c task_id task_queue task_name) p.1 = Option.none) :
    build_cloudify_context c task_id task_queue task_name (Option.some nc)
      = ccBase c task_id task_queue task_name ++ nc := by
  simp only [build_cloudify_context]
  exact Alist.update_of_disjoint nc _ hdisj hnd

theorem buildNodeContext_inv (n : RawNode) (operation : String) (plugin_name : String)
    (props : Dict) (related : Option RelatedArg) (nc : Dict)
    (h : buildNodeContext n operation plugin_name props related = Except.ok nc) :
    (related = Option.none ∧ nc = nodeContextBase n operation plugin_name props)
    ∨ (∃ rn, related = Option.some (RelatedArg.wrapper rn) ∧
        nc = Alist.insert (nodeContextBase n operation plugin_name props) "related"
          (Val.map [("node_id", Val.str rn.id),
                    ("node_properties", Val.map (Alist.pop rn.properties "cloudify_runtime"))])) := by
  cases related with
  | none =>
    left
    simp only [buildNodeContext] at h
    exact ⟨rfl, (by injection h with h2; exact h2.symm)⟩
  | some r =>
    right
    cases r with
    | relObj =>
      simp [buildNodeContext, RelatedArg.getProperties] at h
    | wrapper rn =>
      refine ⟨rn, rfl, ?_⟩
      simp only [buildNodeContext, RelatedArg.getProperties, RelatedArg.getId] at h
      injection h with h2
      exact h2.symm

theorem executeOperation_remote_inv (c : WfCtx) (operation : String) (n : RawNode)
    (operations : OpsTable) (related : Option RelatedArg) (kwargs : Dict) (task_id : String)
    (q : Option String) (tn : String) (kw : Dict) (cc : Dict) (tid2 : String)
    (ops2 : OpsTable)
    (h : executeOperation c operation (NodeArg.wrapper n) operations related kwargs task_id
      = Except.ok (ExecOutcome.remote q tn kw cc tid2, ops2)) :
    ∃ os nc kw0,
      Alist.get? operations operation = Option.some os ∧
      safe_update (computeProperties n os operation operations related).1 kwargs
        = Except.ok kw0 ∧
      buildNodeContext n operation os.plugin
        (computeProperties n os operation operations related).1 related = Except.ok nc ∧
      tn = os.plugin ++ "." ++ os.operation ∧
      cc = build_cloudify_context c task_id q tn (Option.some nc) ∧
      kw = Alist.insert (Alist.insert kw0 "__cloudify_id" (Val.str n.id))
        "__cloudify_context" (Val.map cc) ∧
      ops2 = (computeProperties n os operation operations related).2 ∧
      tid2 = task_id := by
  simp only [executeOperation] at h
  split at h
  · exact absurd h (by simp)
  next os hos =>
    split at h
    next hpl => exact absurd h (by simp)
    next pl hpl =>
      split at h
      next e hq => exact absurd h (by simp)
      next tq hq =>
        split at h
        next e hsu => exact absurd h (by simp)
        next kw0 hsu =>
          split at h
          next e hnc => exact absurd h (by simp)
          next nc hnc =>
            simp only [Except.ok.injEq, Prod.mk.injEq, ExecOutcome.remote.injEq] at h
            obtain ⟨⟨hq2, htn, hkw, hcc, htid⟩, hops⟩ := h
            subst hq2
            subst htn
            subst hcc
            subst hkw
            subst htid
            subst hops
            exact ⟨os, nc, kw0, hos, hsu, hnc, rfl, rfl, rfl, rfl, rfl⟩

/-- C8: for every node N of the topology (ids being unique per the data
model), `get_node(N.id)` returns N; for every id not in the topology it
returns the absent signal `None`; `get_node` is a total lookup and never
raises. -/
theorem C8_get_node_total (dep bp ex wf : Option String) (ns : List RawNode)
    (hnd : (ns.map RawNode.id).Nodup) :
    (∀ N, N ∈ ns →
      WfCtx.get_node (workflowContextInit dep bp ex wf ns) N.id = Option.some N)
    ∧ (∀ i, i ∉ ns.map RawNode.id →
      WfCtx.get_node (workflowContextInit dep bp ex wf ns) i = Option.none) := by
  constructor
  · intro N hm
    exact get?_buildNodesAux_mem ns [] N hnd hm
  · intro i hi
    exact get?_buildNodesAux_not_mem ns [] i hi

/-- Witness for C8 on the sample two-node topology. -/
theorem C8_get_node_total_witness :
    WfCtx.get_node ctxS "n1" = Option.some nS ∧ WfCtx.get_node ctxS "n3" = Option.none := by
  have h := C8_get_node_total (Option.some "d1") (Option.some "b1") (Option.some "e1")
    (Option.some "w1") [nS, nT] (by decide)
  exact ⟨h.1 nS (by simp), h.2 "n3" (by decide)⟩

/-- C4: an operation name absent from the supplied operations table resolves
to the `NOP` marker without any error, for every node, related node, kwargs
and task id; the operations table is returned untouched (no routing,
merging or dispatch happened). -/
theorem C4_missing_operation_nop (c : WfCtx) (n : RawNode) (operations : OpsTable)
    (operation : String) (related : Option RelatedArg) (kwargs : Dict) (task_id : String)
    (h : Alist.get? operations operation = Option.none) :
    executeOperation c operation (NodeArg.wrapper n) operations related kwargs task_id
      = Except.ok (ExecOutcome.nop, operations) := by
  simp only [executeOperation, h]

/-- Witness for C4: `stop` is not declared on the sample node. -/
theorem C4_missing_operation_nop_witness :
    executeOperation ctxS "stop" (NodeArg.wrapper nS) nS.operations Option.none [] "t1"
      = Except.ok (ExecOutcome.nop, nS.operations) :=
  C4_missing_operation_nop ctxS nS nS.operations "stop" Option.none [] "t1" rfl

/-- C10: every relationship wrapper the graph constructs stores the owning
node wrapper (not the workflow context) as `ctx`; consequently every
`execute_relationship_operation` call fails with the attribute-lookup error
raised when resolving the target node (`get_node` does not exist on a node
wrapper), before any operation is resolved, merged or dispatched. -/
theorem C10_relationship_ctx_is_node (n : RawNode) (r : Relationship)
    (hm : r ∈ nodeRelationships n) :
    r.ctx = CtxLike.workflowNode n ∧
    ∀ (operation : String) (run_on_source : Bool) (kwargs : Dict) (task_id : String),
      Relationship.execute_relationship_operation r operation run_on_source kwargs task_id
        = Except.error (PyErr.attributeError "get_node") := by
  simp only [nodeRelationships, List.mem_map] at hm
  obtain ⟨rel, _, hr⟩ := hm
  subst hr
  exact ⟨rfl, fun operation ros kwargs tid => rfl⟩

/-- Witness for C10 on the sample node's relationship wrapper. -/
theorem C10_relationship_ctx_is_node_witness :
    Relationship.execute_relationship_operation relInstS "unlink" false [] "t9"
      = Except.error (PyErr.attributeError "get_node") := by
  have hm : relInstS ∈ nodeRelationships nS := by
    have he : nodeRelationships nS = [relInstS] := rfl
    rw [he]
    exact List.mem_singleton.mpr rfl
  exact (C10_relationship_ctx_is_node nS relInstS hm).2 "unlink" false [] "t9"

/-- C5: for a graph-built relationship whose target id is absent from the
node graph, `execute_relationship_operation` fails with an error for both
values of `run_on_source` — it never proceeds silently and never returns
the no-op marker.  (The failure is the attribute-lookup error raised at the
target-resolution step, cf. C10.) -/
theorem C5_missing_target_fails (g : WfCtx) (n : RawNode) (r : Relationship)
    (hm : r ∈ nodeRelationships n)
    (habsent : ∀ t, Relationship.target_id r = Option.some t →
      WfCtx.get_node g t = Option.none) :
    ∀ (operation : String) (run_on_source : Bool) (kwargs : Dict) (task_id : String),
      isOk (Relationship.execute_relationship_operation r operation run_on_source
        kwargs task_id) = false := by
  simp only [nodeRelationships, List.mem_map] at hm
  obtain ⟨rel, _, hr⟩ := hm
  subst hr
  exact fun operation ros kwargs tid => rfl

/-- Witness for C5: the sample relationship targets `n2`, absent from the
one-node graph `ctxNoT`. -/
theorem C5_missing_target_fails_witness :
    isOk (Relationship.execute_relationship_operation relInstS "link" true [] "t5")
      = false := by
  refine C5_missing_target_fails ctxNoT nS relInstS ?_ ?_ "link" true [] "t5"
  · have he : nodeRelationships nS = [relInstS] := rfl
    rw [he]
    exact List.mem_singleton.mpr rfl
  · intro t ht
    have ht2 : Option.some "n2" = Option.some t := ht
    injection ht2 with he2
    subst he2
    rfl

/-- C3 is a code bug: resolving a node-triggered operation whose definition
declares properties mutates the node graph — line 193 injects the node's
`cloudify_runtime` into the STORED operation definition's properties dict.
At the failing input the resolution succeeds, yet the operations table
afterwards differs from the one supplied: the stored `create` definition
gained the `cloudify_runtime` key. -/
theorem C3_graph_mutated_on_declared_properties :
    isOk execMutC = true
    ∧ opPropsKeys [("create", osCreate)] "create" = Option.some ["a"]
    ∧ opPropsKeys (opsOf execMutC) "create" = Option.some ["a", "cloudify_runtime"]
    ∧ (Option.some ["a"] : Option (List String)) ≠ Option.some ["a", "cloudify_runtime"]
    ∧ Alist.get? (opsOf execMutC) "create"
      = Option.some (OpStruct.mk "p" "run" (Option.some
          [("a", Val.int 1), ("cloudify_runtime", Val.map [("r", Val.int 7)])])) := by
  refine ⟨rfl, rfl, rfl, ?_, rfl⟩
  decide

/-- C2 (amended): merging `declared_properties` into `extra_kwargs` (over
well-formed dict inputs: unique keys, and any `cloudify_runtime` entry a
sub-dictionary, as a Python dict guarantees) succeeds exactly when the two
key sets are disjoint apart from `cloudify_runtime`; any other shared key
raises the collision error.  On success the result holds the key union, and
when both sides carry `cloudify_runtime` the result's sub-map is the shallow
key union of the two with the DECLARED side's entries winning on key
conflicts (the code runs `result[key].update(value)` with `value` the
declared sub-map, so `dict1` overwrites): the claim's "extra_kwargs wins"
direction is refuted by the counterexample below. -/
theorem C2_safe_update_merge (d1 d2 : Dict)
    (h1 : (d1.map Prod.fst).Nodup) (h2 : (d2.map Prod.fst).Nodup)
    (hr1 : runtimeIsMap d1) (hr2 : runtimeIsMap d2) :
    (isOk (safe_update d1 d2) = true ↔
      ∀ k, (Alist.get? d1 k).isSome = true → (Alist.get? d2 k).isSome = true →
        k = "cloudify_runtime")
    ∧ (∀ r, safe_update d1 d2 = Except.ok r →
        ∀ k, (Alist.get? r k).isSome = true ↔
          ((Alist.get? d1 k).isSome = true ∨ (Alist.get? d2 k).isSome = true))
    ∧ (∀ r m1 m2, safe_update d1 d2 = Except.ok r →
        Alist.get? d1 "cloudify_runtime" = Option.some (Val.map m1) →
        Alist.get? d2 "cloudify_runtime" = Option.some (Val.map m2) →
        Alist.get? r "cloudify_runtime" = Option.some (Val.map (Alist.update m2 m1))) := by
  refine ⟨?_, ?_, ?_⟩
  · simp only [safe_update]
    rw [safeUpdateGo_isOk_iff d1 d2 h1 hr1 hr2]
    constructor
    · intro hall k hk1 hk2
      exact hall k ((Alist.isSome_get?_iff_mem_keys d1 k).mp hk1) hk2
    · intro hall k hk1 hk2
      exact hall k ((Alist.isSome_get?_iff_mem_keys d1 k).mpr hk1) hk2
  · intro r h k
    simp only [safe_update] at h
    rw [safeUpdateGo_isSome_get? d1 d2 r h k]
    constructor
    · rintro (hx | hx)
      · right; exact hx
      · left; exact (Alist.isSome_get?_iff_mem_keys d1 k).mpr hx
    · rintro (hx | hx)
      · right; exact (Alist.isSome_get?_iff_mem_keys d1 k).mp hx
      · left; exact hx
  · intro r m1 m2 h hm1 hm2
    exact safeUpdateGo_runtime d1 d2 m1 m2 r h1 hm1 hm2 h

/-- Witness for C2 on the claim's own example: the merge of
`{a:1, cloudify_runtime:{x:1}}` with `{cloudify_runtime:{y:2}}` succeeds and
yields `a ↦ 1` and runtime sub-map `{y:2, x:1}` (key union). -/
theorem C2_safe_update_merge_witness :
    isOk (safe_update [("a", Val.int 1), ("cloudify_runtime", Val.map [("x", Val.int 1)])]
        [("cloudify_runtime", Val.map [("y", Val.int 2)])]) = true
    ∧ safe_update [("a", Val.int 1), ("cloudify_runtime", Val.map [("x", Val.int 1)])]
        [("cloudify_runtime", Val.map [("y", Val.int 2)])]
      = Except.ok [("cloudify_runtime", Val.map [("y", Val.int 2), ("x", Val.int 1)]),
                   ("a", Val.int 1)]
    ∧ safe_update [("a", Val.int 1)] [("a", Val.int 2)]
      = Except.error (PyErr.runtimeError "Target map already contains key: a") := by
  refine ⟨?_, rfl, rfl⟩
  have hr1 : runtimeIsMap
      [("a", Val.int 1), ("cloudify_runtime", Val.map [("x", Val.int 1)])] := by
    intro v hv
    have hv2 : Option.some (Val.map [("x", Val.int 1)]) = Option.some v := hv
    injection hv2 with he
    exact ⟨_, he.symm⟩
  have hr2 : runtimeIsMap [("cloudify_runtime", Val.map [("y", Val.int 2)])] := by
    intro v hv
    have hv2 : Option.some (Val.map [("y", Val.int 2)]) = Option.some v := hv
    injection hv2 with he
    exact ⟨_, he.symm⟩
  refine (C2_safe_update_merge _ _ (by decide) (by decide) hr1 hr2).1.mpr ?_
  intro k hk1 hk2
  by_cases ha : k = "a"
  · subst ha
    simp [Alist.get?] at hk2
  · by_cases hc : k = "cloudify_runtime"
    · exact hc
    · simp [Alist.get?, ha, hc] at hk1

/-- Counterexample for C2 as stated: inside the reserved sub-map the
DECLARED side wins, not `extra_kwargs`.  Merging
`declared = {cloudify_runtime:{x:1}}` with `extra = {cloudify_runtime:{x:2}}`
stores `x ↦ 1` (the claim requires `x ↦ 2`). -/
theorem C2_safe_update_merge_counterexample :
    xEntryInt (safe_update [("cloudify_runtime", Val.map [("x", Val.int 1)])]
        [("cloudify_runtime", Val.map [("x", Val.int 2)])])
      = Option.some 1
    ∧ ¬ (xEntryInt (safe_update [("cloudify_runtime", Val.map [("x", Val.int 1)])]
        [("cloudify_runtime", Val.map [("x", Val.int 2)])])
      = Option.some 2) := by
  refine ⟨rfl, ?_⟩
  intro h
  have h2 : (Option.some (1 : Int)) = Option.some 2 :=
    (rfl : xEntryInt (safe_update [("cloudify_runtime", Val.map [("x", Val.int 1)])]
        [("cloudify_runtime", Val.map [("x", Val.int 2)])]) = Option.some 1).symm.trans h
  injection h2 with h3
  omega

/-- C1: queue precedence for a resolved operation (operation found in the
table, its plugin found in the node's plugin table).  If the plugin's
`agent_plugin` flag is the string `"true"`, any dispatch goes to the node's
`host_id`, and a missing `host_id` raises `KeyError` to the caller;
otherwise if `manager_plugin` is `"true"`, any dispatch goes to the
workflow's `deployment_id`; otherwise any dispatch goes to the fixed
management queue `"cloudify.management"`. -/
theorem C1_queue_precedence (c : WfCtx) (n : RawNode) (operations : OpsTable)
    (related : Option RelatedArg) (kwargs : Dict) (task_id : String)
    (operation : String) (os : OpStruct) (pl : PluginSpec)
    (hop : Alist.get? operations operation = Option.some os)
    (hpl : Alist.get? n.plugins os.plugin = Option.some pl) :
    (pl.agent_plugin = "true" → ∀ hst, n.host_id = Option.some hst →
      (execQueue? (executeOperation c operation (NodeArg.wrapper n) operations related
          kwargs task_id) = Option.some (Option.some hst)
        ∨ isOk (executeOperation c operation (NodeArg.wrapper n) operations related
          kwargs task_id) = false))
    ∧ (pl.agent_plugin = "true" → n.host_id = Option.none →
      executeOperation c operation (NodeArg.wrapper n) operations related kwargs task_id
        = Except.error (PyErr.keyError "host_id"))
    ∧ (¬ pl.agent_plugin = "true" → pl.manager_plugin = "true" →
      (execQueue? (executeOperation c operation (NodeArg.wrapper n) operations related
          kwargs task_id) = Option.some c.deployment_id
        ∨ isOk (executeOperation c operation (NodeArg.wrapper n) operations related
          kwargs task_id) = false))
    ∧ (¬ pl.agent_plugin = "true" → ¬ pl.manager_plugin = "true" →
      (execQueue? (executeOperation c operation (NodeArg.wrapper n) operations related
          kwargs task_id) = Option.some (Option.some "cloudify.management")
        ∨ isOk (executeOperation c operation (NodeArg.wrapper n) operations related
          kwargs task_id) = false)) := by
  have main : ∀ tq, computeTaskQueue c n pl = Except.ok tq →
      (execQueue? (executeOperation c operation (NodeArg.wrapper n) operations related
          kwargs task_id) = Option.some tq
        ∨ isOk (executeOperation c operation (NodeArg.wrapper n) operations related
          kwargs task_id) = false) := by
    intro tq hq
    cases hsu : safe_update (computeProperties n os operation operations related).1
        kwargs with
    | error e =>
      right
      simp [executeOperation, hop, hpl, hq, hsu, isOk]
    | ok kw0 =>
      cases hnc : buildNodeContext n operation os.plugin
          (computeProperties n os operation operations related).1 related with
      | error e =>
        right
        simp [executeOperation, hop, hpl, hq, hsu, hnc, isOk]
      | ok nc =>
        left
        simp [executeOperation, hop, hpl, hq, hsu, hnc, execQueue?]
  refine ⟨?_, ?_, ?_, ?_⟩
  · intro hag hst hhost
    exact main (Option.some hst) (by simp [computeTaskQueue, hag, hhost])
  · intro hag hnone
    have hq : computeTaskQueue c n pl = Except.error (PyErr.keyError "host_id") := by
      simp [computeTaskQueue, hag, hnone]
    simp [executeOperation, hop, hpl, hq]
  · intro hnag hmg
    exact main c.deployment_id (by simp [computeTaskQueue, hnag, hmg])
  · intro hnag hnmg
    exact main (Option.some "cloudify.management") (by simp [computeTaskQueue, hnag, hnmg])

/-- Witness for C1: the sample agent-owned operation routes to host `h1`. -/
theorem C1_queue_precedence_witness :
    execQueue? execS = Option.some (Option.some "h1") := by
  have h := (C1_queue_precedence ctxS nS nS.operations Option.none [] "t1" "start"
    osStart (PluginSpec.mk "true" "false") rfl rfl).1 rfl "h1" rfl
  rcases h with h | h
  · exact h
  · exact absurd h (by decide)

theorem get?_ccBase_none (c : WfCtx) (task_id : String) (task_queue : Option String)
    (task_name : String) (k : String)
    (hk : k ∉ ["__cloudify_context", "task_id", "task_name", "task_target",
      "blueprint_id", "deployment_id", "execution_id", "workflow_id"]) :
    Alist.get? (ccBase c task_id task_queue task_name) k = Option.none := by
  simp only [List.mem_cons, List.not_mem_nil, or_false, not_or] at hk
  obtain ⟨h1, h2, h3, h4, h5, h6, h7, h8⟩ := hk
  simp [ccBase, Alist.get?, h1, h2, h3, h4, h5, h6, h7, h8]

theorem build_cc_with_base (c : WfCtx) (task_id : String) (task_queue : Option String)
    (task_name : String) (n : RawNode) (operation : String) (plugin_name : String)
    (props : Dict) :
    build_cloudify_context c task_id task_queue task_name
        (Option.some (nodeContextBase n operation plugin_name props))
      = ccBase c task_id task_queue task_name
        ++ nodeContextBase n operation plugin_name props := by
  apply build_cc_eq_append
  · have he : Alist.keys (nodeContextBase n operation plugin_name props)
        = ["node_id", "node_name", "node_properties", "plugin",
           "operation", "capabilities"] := rfl
    rw [he]
    decide
  · intro p hp
    apply get?_ccBase_none
    have hmem : p.1 ∈ Alist.keys (nodeContextBase n operation plugin_name props) :=
      List.mem_map.mpr ⟨p, hp, rfl⟩
    have hmem2 : p.1 ∈ ["node_id", "node_name", "node_properties", "plugin",
        "operation", "capabilities"] := hmem
    simp only [List.mem_cons, List.not_mem_nil, or_false] at hmem2
    rcases hmem2 with h | h | h | h | h | h <;> rw [h] <;> decide

theorem build_cc_with_related (c : WfCtx) (task_id : String) (task_queue : Option String)
    (task_name : String) (n : RawNode) (operation : String) (plugin_name : String)
    (props : Dict) (v : Val) :
    build_cloudify_context c task_id task_queue task_name
        (Option.some (Alist.insert (nodeContextBase n operation plugin_name props)
          "related" v))
      = ccBase c task_id task_queue task_name
        ++ nodeContextBase n operation plugin_name props ++ [("related", v)] := by
  have hins : Alist.insert (nodeContextBase n operation plugin_name props) "related" v
      = nodeContextBase n operation plugin_name props ++ [("related", v)] :=
    Alist.insert_of_get?_eq_none _ _ _ rfl
  rw [hins, List.append_assoc]
  apply build_cc_eq_append
  · have he : Alist.keys (nodeContextBase n operation plugin_name props
        ++ [("related", v)])
        = ["node_id", "node_name", "node_properties", "plugin",
           "operation", "capabilities", "related"] := by
      simp [Alist.keys, nodeContextBase]
    rw [he]
    decide
  · intro p hp
    apply get?_ccBase_none
    have hmem : p.1 ∈ Alist.keys (nodeContextBase n operation plugin_name props
        ++ [("related", v)]) := List.mem_map.mpr ⟨p, hp, rfl⟩
    have hmem2 : p.1 ∈ ["node_id", "node_name", "node_properties", "plugin",
        "operation", "capabilities", "related"] := by
      have he : Alist.keys (nodeContextBase n operation plugin_name props
          ++ [("related", v)])
          = ["node_id", "node_name", "node_properties", "plugin",
             "operation", "capabilities", "related"] := by
        simp [Alist.keys, nodeContextBase]
      rw [← he]
      exact hmem
    simp only [List.mem_cons, List.not_mem_nil, or_false] at hmem2
    rcases hmem2 with h | h | h | h | h | h | h <;> rw [h] <;> decide

theorem computeProperties_related_fst (n : RawNode) (os : OpStruct) (operation : String)
    (operations : OpsTable) (r : RelatedArg) :
    (computeProperties n os operation operations (Option.some r)).1
      = [("cloudify_runtime",
          (Alist.get? n.properties "cloudify_runtime").getD (Val.map []))] := by
  rw [computeProperties_related]

/-- C9 (amended): every envelope produced for dispatch is a flat mapping
whose keys are exactly `__cloudify_context` (carrying the protocol version
tag `"0.3"`), `task_id`, `task_name`, `task_target`, `blueprint_id`,
`deployment_id`, `execution_id`, `workflow_id`, plus the node-context keys
`node_id, node_name, node_properties, plugin, operation, capabilities` and,
for a relationship-triggered operation, `related`.  No key named
`protocol_version` exists — the version tag travels under
`__cloudify_context` (see the counterexample). -/
theorem C9_envelope_shape (c : WfCtx) (operation : String) (n : RawNode)
    (operations : OpsTable) (related : Option RelatedArg) (kwargs : Dict)
    (task_id : String) (q : Option String) (tn : String) (kw : Dict) (cc : Dict)
    (tid2 : String) (ops2 : OpsTable)
    (h : executeOperation c operation (NodeArg.wrapper n) operations related kwargs task_id
      = Except.ok (ExecOutcome.remote q tn kw cc tid2, ops2)) :
    Alist.get? cc "__cloudify_context" = Option.some (Val.str "0.3")
    ∧ Alist.get? cc "protocol_version" = Option.none
    ∧ Alist.keys cc
      = ["__cloudify_context", "task_id", "task_name", "task_target", "blueprint_id",
         "deployment_id", "execution_id", "workflow_id", "node_id", "node_name",
         "node_properties", "plugin", "operation", "capabilities"]
        ++ (if related.isSome then ["related"] else []) := by
  obtain ⟨os, nc, kw0, hos, hsu, hnc, htn, hcc, hkw, hops, htid⟩ :=
    executeOperation_remote_inv c operation n operations related kwargs task_id
      q tn kw cc tid2 ops2 h
  rcases buildNodeContext_inv n operation os.plugin
      (computeProperties n os operation operations related).1 related nc hnc with
    ⟨hrel, hnceq⟩ | ⟨rn, hrel, hnceq⟩
  · subst hrel
    subst hnceq
    subst hcc
    rw [build_cc_with_base]
    exact ⟨rfl, rfl, rfl⟩
  · subst hrel
    subst hnceq
    subst hcc
    rw [build_cc_with_related]
    exact ⟨rfl, rfl, rfl⟩

/-- Witness for C9 on the sample node-triggered dispatch. -/
theorem C9_envelope_shape_witness :
    Alist.keys (ccD execS)
      = ["__cloudify_context", "task_id", "task_name", "task_target", "blueprint_id",
         "deployment_id", "execution_id", "workflow_id", "node_id", "node_name",
         "node_properties", "plugin", "operation", "capabilities"] := by
  have h := C9_envelope_shape ctxS "start" nS nS.operations Option.none [] "t1"
    (queueD execS) (tnameD execS) (kwargsD execS) (ccD execS) (tidD execS)
    (opsOf execS) rfl
  simpa using h.2.2

/-- Counterexample for C9 as stated: the sample dispatch succeeds and its
envelope has NO key named `protocol_version`. -/
theorem C9_envelope_shape_counterexample :
    isOk execS = true
    ∧ (ccOf execS).map (fun cc => Alist.get? cc "protocol_version")
      = Option.some Option.none := ⟨rfl, rfl⟩

/-- C7: in every produced envelope the sanitized `node_properties` block
contains neither the internal node-id marker `__cloudify_id` nor the raw
`cloudify_runtime` key; a `capabilities` entry is always present (the
runtime sub-map travels only there); and the related block, when present,
carries properties with `cloudify_runtime` likewise stripped. -/
theorem C7_sanitized_properties (c : WfCtx) (operation : String) (n : RawNode)
    (operations : OpsTable) (related : Option RelatedArg) (kwargs : Dict)
    (task_id : String) (q : Option String) (tn : String) (kw : Dict) (cc : Dict)
    (tid2 : String) (ops2 : OpsTable)
    (h : executeOperation c operation (NodeArg.wrapper n) operations related kwargs task_id
      = Except.ok (ExecOutcome.remote q tn kw cc tid2, ops2)) :
    (∀ m, Alist.get? cc "node_properties" = Option.some (Val.map m) →
      Alist.get? m "__cloudify_id" = Option.none
        ∧ Alist.get? m "cloudify_runtime" = Option.none)
    ∧ (Alist.get? cc "capabilities").isSome = true
    ∧ (∀ rv, Alist.get? cc "related" = Option.some rv →
      ∃ rid rm, rv = Val.map [("node_id", Val.str rid), ("node_properties", Val.map rm)]
        ∧ Alist.get? rm "cloudify_runtime" = Option.none) := by
  obtain ⟨os, nc, kw0, hos, hsu, hnc, htn, hcc, hkw, hops, htid⟩ :=
    executeOperation_remote_inv c operation n operations related kwargs task_id
      q tn kw cc tid2 ops2 h
  rcases buildNodeContext_inv n operation os.plugin
      (computeProperties n os operation operations related).1 related nc hnc with
    ⟨hrel, hnceq⟩ | ⟨rn, hrel, hnceq⟩
  · subst hrel
    subst hnceq
    subst hcc
    rw [build_cc_with_base]
    refine ⟨?_, rfl, ?_⟩
    · intro m hm
      have hm2 : Option.some (Val.map (Alist.pop (Alist.pop
          (computeProperties n os operation operations Option.none).1 "__cloudify_id")
          "cloudify_runtime")) = Option.some (Val.map m) := hm
      injection hm2 with h3
      injection h3 with h4
      subst h4
      constructor <;> simp [Alist.get?_pop]
    · intro rv hrv
      have hrv2 : (Option.none : Option Val) = Option.some rv := hrv
      exact Option.noConfusion hrv2
  · subst hrel
    subst hnceq
    subst hcc
    rw [build_cc_with_related]
    refine ⟨?_, rfl, ?_⟩
    · intro m hm
      have hm2 : Option.some (Val.map (Alist.pop (Alist.pop
          (computeProperties n os operation operations
            (Option.some (RelatedArg.wrapper rn))).1 "__cloudify_id")
          "cloudify_runtime")) = Option.some (Val.map m) := hm
      injection hm2 with h3
      injection h3 with h4
      subst h4
      constructor <;> simp [Alist.get?_pop]
    · intro rv hrv
      have hrv2 : Option.some (Val.map [("node_id", Val.str rn.id),
          ("node_properties", Val.map (Alist.pop rn.properties "cloudify_runtime"))])
          = Option.some rv := hrv
      injection hrv2 with h3
      refine ⟨rn.id, Alist.pop rn.properties "cloudify_runtime", h3.symm, ?_⟩
      simp [Alist.get?_pop]

/-- Witness for C7 on the sample node-triggered dispatch: the envelope's
node_properties is the node's properties without the runtime sub-map, and
carries neither reserved key. -/
theorem C7_sanitized_properties_witness :
    Alist.get? (ccD execS) "node_properties" = Option.some (Val.map [("p", Val.int 1)])
    ∧ Alist.get? [("p", Val.int 1)] "__cloudify_id" = Option.none
    ∧ Alist.get? [("p", Val.int 1)] "cloudify_runtime" = Option.none := by
  have h := C7_sanitized_properties ctxS "start" nS nS.operations Option.none [] "t1"
    (queueD execS) (tnameD execS) (kwargsD execS) (ccD execS) (tidD execS)
    (opsOf execS) rfl
  have h2 := h.1 [("p", Val.int 1)] rfl
  exact ⟨rfl, h2.1, h2.2⟩

/-- C6: a relationship-triggered operation whose definition declares no
properties merges an empty base — the envelope's `node_properties` is the
empty dict, `capabilities` is exactly the acting node's runtime sub-map,
and no key of the final task kwargs comes from the node's default
properties (every key beyond the three injected ones originates in the
caller's kwargs). -/
theorem C6_relationship_base_empty (c : WfCtx) (operation : String) (n : RawNode)
    (operations : OpsTable) (os : OpStruct) (r : RelatedArg) (kwargs : Dict)
    (task_id : String) (q : Option String) (tn : String) (kw : Dict) (cc : Dict)
    (tid2 : String) (ops2 : OpsTable)
    (hop : Alist.get? operations operation = Option.some os)
    (hdecl : os.properties = Option.none)
    (h : executeOperation c operation (NodeArg.wrapper n) operations (Option.some r)
      kwargs task_id = Except.ok (ExecOutcome.remote q tn kw cc tid2, ops2)) :
    Alist.get? cc "node_properties" = Option.some (Val.map [])
    ∧ Alist.get? cc "capabilities"
      = Option.some ((Alist.get? n.properties "cloudify_runtime").getD (Val.map []))
    ∧ (∀ k, k ≠ "cloudify_runtime" → k ≠ "__cloudify_id" → k ≠ "__cloudify_context" →
      Alist.get? kwargs k = Option.none → Alist.get? kw k = Option.none) := by
  obtain ⟨os2, nc, kw0, hos2, hsu, hnc, htn, hcc, hkw, hops, htid⟩ :=
    executeOperation_remote_inv c operation n operations (Option.some r) kwargs task_id
      q tn kw cc tid2 ops2 h
  rw [hop] at hos2
  injection hos2 with he
  subst he
  rw [computeProperties_related_fst] at hsu hnc
  rcases buildNodeContext_inv n operation os.plugin
      [("cloudify_runtime", (Alist.get? n.properties "cloudify_runtime").getD (Val.map []))]
      (Option.some r) nc hnc with ⟨hrel, _⟩ | ⟨rn, hrel, hnceq⟩
  · exact absurd hrel (by simp)
  · injection hrel with hr2
    subst hr2
    subst hnceq
    subst hcc
    rw [build_cc_with_related]
    refine ⟨rfl, rfl, ?_⟩
    intro k h1 h2 h3 hknone
    subst hkw
    rw [Alist.get?_insert]
    simp only [h3, if_false]
    rw [Alist.get?_insert]
    simp only [h2, if_false]
    have hiff := safeUpdateGo_isSome_get?
      [("cloudify_runtime", (Alist.get? n.properties "cloudify_runtime").getD (Val.map []))]
      kwargs kw0 hsu k
    cases hk0 : Alist.get? kw0 k with
    | none => rfl
    | some v =>
      exfalso
      have hs : (Alist.get? kw0 k).isSome = true := by rw [hk0]; rfl
      rcases hiff.mp hs with hx | hx
      · rw [hknone] at hx
        exact Bool.noConfusion hx
      · simp at hx
        exact h1 hx

/-- Witness for C6 on the sample relationship-triggered dispatch over a node
with properties `{p:1, cloudify_runtime:{r:7}}`. -/
theorem C6_relationship_base_empty_witness :
    Alist.get? (ccD execRelS) "node_properties" = Option.some (Val.map [])
    ∧ Alist.get? (ccD execRelS) "capabilities"
      = Option.some (Val.map [("r", Val.int 7)]) := by
  have h := C6_relationship_base_empty ctxS "link" nS relS.source_operations osStart
    (RelatedArg.wrapper nT) [] "t6" (queueD execRelS) (tnameD execRelS)
    (kwargsD execRelS) (ccD execRelS) (tidD execRelS) (opsOf execRelS) rfl rfl rfl
  refine ⟨h.1, ?_⟩
  rw [h.2.1]
  rfl
